import Mathlib

/-!
Verification development for the Star Jet sales application
(`src/unnamed/part_001`, the sales-entry module `sales.js`, and
`src/starjet/sales-track.js`).

The JavaScript source is shallowly embedded:

* JavaScript numbers are modelled by `JSNum`: either `NaN`, `+Infinity`,
  `-Infinity`, or a finite value carried as an exact rational.  Double
  rounding is not modelled — arithmetic on finite values is exact — and
  float overflow to `Infinity` is likewise not modelled; the code's own
  overflow guard (`total > Number.MAX_SAFE_INTEGER`) is modelled exactly.
* JavaScript primitive values that can reach the validators are modelled
  by `JSVal` (strings, numbers, booleans, `null`, `undefined`).
* `parseFloat`, `parseInt`, the regex-based sanitizer, and `trim` are
  modelled character-by-character after the ECMAScript behaviour the
  source relies on.
* DOM access is replaced by explicit arguments: a table row becomes a
  `SaleRow` of raw input strings, and the submit handler becomes a pure
  function from its inputs to a `SubmitOutcome`.
-/

set_option maxRecDepth 8192

/- The Batteries rational operations are `[irreducible]`, which blocks
kernel evaluation inside `decide`; restore the default reducibility for
this development so concrete runs of the embedded code can be checked. -/
attribute [local semireducible] Rat.add Rat.mul Rat.inv Rat.sub

/-- A JavaScript number: `NaN`, an infinity, or a finite value (modelled
as an exact rational). -/
inductive JSNum where
  | nan : JSNum
  | pinf : JSNum
  | ninf : JSNum
  | fin (q : ℚ) : JSNum
deriving DecidableEq

namespace JSNum

/-- JavaScript `isNaN` on an already-numeric value. -/
def isNaNb : JSNum → Bool
  | .nan => true
  | _ => false

/-- JavaScript `isFinite` on a number. -/
def isFiniteb : JSNum → Bool
  | .fin _ => true
  | _ => false

/-- The rational carried by a finite JavaScript number (0 for the
non-finite values, which the guarded code paths never reach). -/
def toQ : JSNum → ℚ
  | .fin q => q
  | _ => 0

/-- JavaScript `<` on numbers: any comparison with `NaN` is false. -/
def ltb : JSNum → JSNum → Bool
  | .nan, _ => false
  | _, .nan => false
  | .pinf, _ => false
  | .ninf, .ninf => false
  | .ninf, _ => true
  | .fin _, .pinf => true
  | .fin _, .ninf => false
  | .fin a, .fin b => decide (a < b)

/-- JavaScript multiplication, with `NaN` absorption and the
`Infinity * 0 = NaN` rule. -/
def mul : JSNum → JSNum → JSNum
  | .nan, _ => .nan
  | _, .nan => .nan
  | .pinf, .pinf => .pinf
  | .pinf, .ninf => .ninf
  | .ninf, .pinf => .ninf
  | .ninf, .ninf => .pinf
  | .pinf, .fin q => if q = 0 then .nan else if 0 < q then .pinf else .ninf
  | .ninf, .fin q => if q = 0 then .nan else if 0 < q then .ninf else .pinf
  | .fin q, .pinf => if q = 0 then .nan else if 0 < q then .pinf else .ninf
  | .fin q, .ninf => if q = 0 then .nan else if 0 < q then .ninf else .pinf
  | .fin a, .fin b => .fin (a * b)

/-- JavaScript addition. -/
def add : JSNum → JSNum → JSNum
  | .nan, _ => .nan
  | _, .nan => .nan
  | .pinf, .ninf => .nan
  | .ninf, .pinf => .nan
  | .pinf, _ => .pinf
  | _, .pinf => .pinf
  | .ninf, _ => .ninf
  | _, .ninf => .ninf
  | .fin a, .fin b => .fin (a + b)

/-- JavaScript negation. -/
def neg : JSNum → JSNum
  | .nan => .nan
  | .pinf => .ninf
  | .ninf => .pinf
  | .fin q => .fin (-q)

/-- JavaScript subtraction. -/
def sub (a b : JSNum) : JSNum := add a (neg b)

/-- JavaScript division (in a model without `-0`, `x / 0` for `x ≠ 0`
takes the sign of `x`). -/
def div : JSNum → JSNum → JSNum
  | .nan, _ => .nan
  | _, .nan => .nan
  | .pinf, .pinf => .nan
  | .pinf, .ninf => .nan
  | .ninf, .pinf => .nan
  | .ninf, .ninf => .nan
  | .pinf, .fin q => if 0 ≤ q then .pinf else .ninf
  | .ninf, .fin q => if 0 ≤ q then .ninf else .pinf
  | .fin _, .pinf => .fin 0
  | .fin _, .ninf => .fin 0
  | .fin a, .fin b =>
    if b = 0 then (if a = 0 then .nan else if 0 < a then .pinf else .ninf)
    else .fin (a / b)

end JSNum

/-- JavaScript `x || 0` applied to a number: the falsy numbers (`NaN`
and zero) become `0`; in a model without `-0` only `NaN` changes. -/
def jsOr0 : JSNum → JSNum
  | .nan => .fin 0
  | x => x

/-- The characters JavaScript treats as whitespace for `trim`,
`parseFloat` and `parseInt` (space, tab, line terminators, NBSP, BOM). -/
def isJsWS (c : Char) : Bool :=
  c.toNat ∈ [9, 10, 11, 12, 13, 32, 160, 8232, 8233, 65279]

/-- Value of a list of decimal digit characters. -/
def digitsVal (l : List Char) : ℕ :=
  l.foldl (fun a c => 10 * a + (c.toNat - 48)) 0

/-- Sign parsing shared by `parseFloat` and `parseInt`: an optional
leading `+` or `-`. -/
def parseSign : List Char → ℚ × List Char
  | '+' :: r => (1, r)
  | '-' :: r => (-1, r)
  | l => (1, l)

/-- Exponent part of a decimal literal: `e`/`E` was already consumed;
if no digits follow the (optional) sign the exponent part does not
match and contributes a factor of 1, as in ECMAScript longest-prefix
parsing. -/
def parseExp (l : List Char) : ℤ :=
  let sl : ℤ × List Char :=
    match l with
    | '+' :: r => (1, r)
    | '-' :: r => (-1, r)
    | r => (1, r)
  let ed := sl.2.takeWhile Char.isDigit
  if ed.isEmpty then 0 else sl.1 * digitsVal ed

/-- ECMAScript `parseFloat`: skip leading whitespace, optional sign,
then the longest prefix that is `Infinity` or a decimal literal
(`digits [. digits] [e [sign] digits]`, or `. digits …`); `NaN` when no
such prefix exists.  Trailing garbage is ignored. -/
def parseFloat (s : String) : JSNum :=
  let l := s.data.dropWhile isJsWS
  let sgn := parseSign l
  if "Infinity".data.isPrefixOf sgn.2 then
    (if sgn.1 = 1 then .pinf else .ninf)
  else
    let ip := sgn.2.takeWhile Char.isDigit
    let r1 := sgn.2.dropWhile Char.isDigit
    let fpr : List Char × List Char :=
      match r1 with
      | '.' :: rest => (rest.takeWhile Char.isDigit, rest.dropWhile Char.isDigit)
      | _ => ([], r1)
    if ip.isEmpty && fpr.1.isEmpty then .nan
    else
      let e : ℤ :=
        match fpr.2 with
        | 'e' :: rest => parseExp rest
        | 'E' :: rest => parseExp rest
        | _ => 0
      .fin (sgn.1 * ((digitsVal ip : ℚ) + (digitsVal fpr.1 : ℚ) / 10 ^ fpr.1.length) * 10 ^ e)

/-- Is `c` a digit of the given radix (only 10 and 16 occur)? -/
def isRadixDigit (base : ℕ) (c : Char) : Bool :=
  if base = 16 then
    c.isDigit || ('a' ≤ c && c ≤ 'f') || ('A' ≤ c && c ≤ 'F')
  else
    c.isDigit

/-- Value of a hexadecimal digit character. -/
def hexVal (c : Char) : ℕ :=
  if c.isDigit then c.toNat - 48
  else if 'a' ≤ c then c.toNat - 87
  else c.toNat - 55

/-- Value of a digit list in the given radix. -/
def radixVal (base : ℕ) (l : List Char) : ℕ :=
  l.foldl (fun a c => base * a + hexVal c) 0

/-- ECMAScript `parseInt` with no radix argument: skip whitespace,
optional sign, optional `0x`/`0X` prefix selecting radix 16, then the
longest prefix of radix digits; `NaN` if it is empty. -/
def parseInt (s : String) : JSNum :=
  let l := s.data.dropWhile isJsWS
  let sgn := parseSign l
  let br : ℕ × List Char :=
    match sgn.2 with
    | '0' :: 'x' :: r => (16, r)
    | '0' :: 'X' :: r => (16, r)
    | r => (10, r)
  let ds := br.2.takeWhile (isRadixDigit br.1)
  if ds.isEmpty then .nan
  else .fin (sgn.1 * (radixVal br.1 ds : ℚ))

/-! ## The input sanitizer (`sanitizeInput`, part_001 lines 70–81)

The four `String.prototype.replace` calls with global regexes are
modelled one scan each.  A global replace scans left to right: on a
match it emits nothing and resumes after the matched text (removed text
is not rescanned), on a failure it emits one character and advances.
The scans are written with an explicit fuel argument (the input length
suffices) so that they reduce by kernel evaluation. -/

/-- One global-replace scan for `/<[^>]*>/g`: a match at a `<` runs to
the first following `>` (the greedy `[^>]*` cannot cross a `>`); a `<`
with no later `>` never matches. -/
def removeTagsF : ℕ → List Char → List Char
  | 0, l => l
  | _ + 1, [] => []
  | f + 1, c :: cs =>
    if c = '<' then
      match cs.dropWhile (fun d => d ≠ '>') with
      | [] => c :: removeTagsF f cs
      | _ :: after => removeTagsF f after
    else c :: removeTagsF f cs

/-- `/<[^>]*>/g` replace. -/
def removeTags (l : List Char) : List Char := removeTagsF l.length l

/-- `/[<>]/g` replace: drop every angle bracket. -/
def removeAngle (l : List Char) : List Char :=
  l.filter (fun c => !(c = '<' || c = '>'))

/-- Case-insensitive match of a lowercase pattern at the head of the
input; on success returns the input after the match. -/
def matchCI : List Char → List Char → Option (List Char)
  | [], l => some l
  | _ :: _, [] => none
  | p :: ps, c :: cs => if c.toLower = p then matchCI ps cs else none

/-- The pattern of the `/javascript:/gi` replace. -/
def jsPattern : List Char := "javascript:".data

/-- One global-replace scan for `/javascript:/gi`. -/
def removeJSF : ℕ → List Char → List Char
  | 0, l => l
  | _ + 1, [] => []
  | f + 1, c :: cs =>
    match matchCI jsPattern (c :: cs) with
    | some rest => removeJSF f rest
    | none => c :: removeJSF f cs

/-- `/javascript:/gi` replace. -/
def removeJS (l : List Char) : List Char := removeJSF l.length l

/-- JavaScript regex `\w`: ASCII letters, digits, underscore. -/
def isWordChar (c : Char) : Bool :=
  ('a' ≤ c && c ≤ 'z') || ('A' ≤ c && c ≤ 'Z') || ('0' ≤ c && c ≤ '9') || c = '_'

/-- Match `/on\w+=/i` at the head of the input: `on` (either case), a
maximal nonempty run of word characters, then `=` (the greedy `\w+`
cannot end before a word character, so no backtracking arises).  On
success returns the input after the match. -/
def matchOn : List Char → Option (List Char)
  | c1 :: c2 :: rest =>
    if (c1 = 'o' || c1 = 'O') && (c2 = 'n' || c2 = 'N') then
      if (rest.takeWhile isWordChar).isEmpty then none
      else
        match rest.dropWhile isWordChar with
        | d :: r => if d = '=' then some r else none
        | [] => none
    else none
  | _ => none

/-- One global-replace scan for `/on\w+=/gi`. -/
def removeOnF : ℕ → List Char → List Char
  | 0, l => l
  | _ + 1, [] => []
  | f + 1, c :: cs =>
    match matchOn (c :: cs) with
    | some rest => removeOnF f rest
    | none => c :: removeOnF f cs

/-- `/on\w+=/gi` replace. -/
def removeOn (l : List Char) : List Char := removeOnF l.length l

/-- JavaScript `String.prototype.trim`: strip leading and trailing
whitespace. -/
def trimStr (l : List Char) : List Char :=
  ((l.dropWhile isJsWS).reverse.dropWhile isJsWS).reverse

/-- The sanitizer pipeline on the characters of a string, in source
order: strip HTML tags, strip angle brackets, strip `javascript:`
schemes, strip `on…=` handler prefixes, trim. -/
def sanitizeChars (l : List Char) : List Char :=
  trimStr (removeOn (removeJS (removeAngle (removeTags l))))

/-- `sanitizeInput` restricted to string input (the `typeof` guard has
already passed). -/
def sanitizeInputStr (s : String) : String :=
  ⟨sanitizeChars s.data⟩

/-! ## JavaScript values reaching the validators -/

/-- A primitive JavaScript value as passed to `sanitizeInput` /
`validateNumericInput` (the call sites pass form-field strings; the
other primitives exercise the `typeof` and `String(value)` paths). -/
inductive JSVal where
  | vstr (s : String) : JSVal
  | vnum (n : JSNum) : JSVal
  | vbool (b : Bool) : JSVal
  | vnull : JSVal
  | vundef : JSVal
deriving DecidableEq

/-- Decimal rendering of a nonnegative rational whose denominator
divides a power of ten (every finite double qualifies); the bounded
search covers the 1074 fractional digits a double can need. -/
def ratDecString (q : ℚ) : String :=
  match (List.range 1101).find? (fun k => q.den ∣ 10 ^ k) with
  | some 0 => ⟨Nat.toDigits 10 q.num.toNat⟩
  | some (k + 1) =>
    let n := q.num.toNat * (10 ^ (k + 1) / q.den)
    let frac := Nat.toDigits 10 (n % 10 ^ (k + 1))
    ⟨Nat.toDigits 10 (n / 10 ^ (k + 1)) ++
      ('.' :: (List.replicate (k + 1 - frac.length) '0' ++ frac))⟩
  | none => "0"

/-- ECMAScript `ToString` on a number (model: plain decimal notation;
exponent notation for extreme magnitudes is not modelled — what matters
downstream is that the rendering reparses to the same value). -/
def numToString : JSNum → String
  | .nan => "NaN"
  | .pinf => "Infinity"
  | .ninf => "-Infinity"
  | .fin q => if q < 0 then ⟨'-' :: (ratDecString (-q)).data⟩ else ratDecString q

/-- ECMAScript `String(value)` on the modelled primitives. -/
def jsToString : JSVal → String
  | .vstr s => s
  | .vnum n => numToString n
  | .vbool true => "true"
  | .vbool false => "false"
  | .vnull => "null"
  | .vundef => "undefined"

/-- `sanitizeInput` (part_001 lines 70–81): non-string input yields the
empty string, string input goes through the replace pipeline. -/
def sanitizeInput : JSVal → String
  | .vstr s => sanitizeInputStr s
  | _ => ""

/-! ## Bounded numeric validation and the row total calculator
(part_001 lines 38–45, 92–107, 120–179) -/

/-- `SECURITY_CONFIG` (part_001 lines 38–45). -/
def MAX_ITEMS_PER_SALE : ℕ := 50

/-- `SECURITY_CONFIG.MAX_QUANTITY_PER_ITEM`. -/
def MAX_QUANTITY_PER_ITEM : ℚ := 10000

/-- `SECURITY_CONFIG.MAX_PRICE_PER_ITEM`. -/
def MAX_PRICE_PER_ITEM : ℚ := 1000000

/-- `SECURITY_CONFIG.MAX_ITEM_DIMENSIONS`. -/
def MAX_ITEM_DIMENSIONS : ℚ := 10000

/-- `Number.MAX_SAFE_INTEGER` = 2^53 − 1. -/
def MAX_SAFE_INTEGER : ℚ := 9007199254740991

/-- Result record of `validateNumericInput`: `{ isValid, sanitizedValue }`. -/
structure ValidationResult where
  isValid : Bool
  sanitizedValue : JSNum
deriving DecidableEq

/-- `validateNumericInput(value, min, max, fieldName)` (part_001 lines
92–107).  The `fieldName` argument only feeds `console.warn` and is
dropped.  `parseFloat(sanitizeInput(String(value)))`, then the `isNaN`
check, then the inclusive range check. -/
def validateNumericInput (value : JSVal) (min max : ℚ) : ValidationResult :=
  let sanitized := sanitizeInputStr (jsToString value)
  let numericValue := parseFloat sanitized
  if numericValue.isNaNb then
    { isValid := false, sanitizedValue := .fin 0 }
  else if JSNum.ltb numericValue (.fin min) || JSNum.ltb (.fin max) numericValue then
    { isValid := false, sanitizedValue := numericValue }
  else
    { isValid := true, sanitizedValue := numericValue }

/-- The `hasWidth`-style predicate of part_001 lines 135–138 and
284–287: the field validated successfully and its value is `> 0`. -/
def hasPos (value : JSVal) (min max : ℚ) : Bool :=
  let v := validateNumericInput value min max
  v.isValid && JSNum.ltb (.fin 0) v.sanitizedValue

/-- `calculateRowTotal(width, length, quantity, unitPrice)` (part_001
lines 120–179).  The `console.error` overflow logging is dropped; the
four-way branch and the overflow guard are modelled exactly. -/
def calculateRowTotal (width length quantity unitPrice : JSVal) : JSNum :=
  let widthValidation := validateNumericInput width 0 MAX_ITEM_DIMENSIONS
  let lengthValidation := validateNumericInput length 0 MAX_ITEM_DIMENSIONS
  let quantityValidation := validateNumericInput quantity 0 MAX_QUANTITY_PER_ITEM
  let priceValidation := validateNumericInput unitPrice 0 MAX_PRICE_PER_ITEM
  let widthVal := widthValidation.sanitizedValue
  let lengthVal := lengthValidation.sanitizedValue
  let quantityVal := quantityValidation.sanitizedValue
  let unitPriceVal := priceValidation.sanitizedValue
  let hasWidth := widthValidation.isValid && JSNum.ltb (.fin 0) widthVal
  let hasLength := lengthValidation.isValid && JSNum.ltb (.fin 0) lengthVal
  let hasQuantity := quantityValidation.isValid && JSNum.ltb (.fin 0) quantityVal
  let hasUnitPrice := priceValidation.isValid && JSNum.ltb (.fin 0) unitPriceVal
  if hasWidth && hasLength && hasQuantity && hasUnitPrice then
    let area := JSNum.mul widthVal lengthVal
    let total := JSNum.mul (JSNum.mul area quantityVal) unitPriceVal
    if !total.isFiniteb || JSNum.ltb (.fin MAX_SAFE_INTEGER) total then .fin 0
    else total
  else if !hasWidth && !hasLength && hasQuantity && hasUnitPrice then
    let total := JSNum.mul quantityVal unitPriceVal
    if !total.isFiniteb || JSNum.ltb (.fin MAX_SAFE_INTEGER) total then .fin 0
    else total
  else .fin 0

/-! ## The aggregator and the submit handler (part_001 lines 181–201,
233–347) -/

/-- The raw form-field strings of one table row (`<tr>` of
`#itemsTbody`). -/
structure SaleRow where
  item : String
  width : String
  length : String
  space : String
  quantity : String
  unitPrice : String
  itemTotal : String
deriving DecidableEq

/-- `updateAllTotals` (part_001 lines 181–201) as a pure function from
the row inputs and the discount field to `(supTotal, finalTotal)`; the
per-row `toFixed(2)` display writes are presentation only. -/
def updateAllTotals (rows : List SaleRow) (discountStr : String) : JSNum × JSNum :=
  let supTotal := rows.foldl
    (fun acc r => JSNum.add acc
      (calculateRowTotal (.vstr r.width) (.vstr r.length) (.vstr r.quantity) (.vstr r.unitPrice)))
    (.fin 0)
  let discount := jsOr0 (parseFloat discountStr)
  let finalTotal :=
    if JSNum.ltb (.fin 0) discount then
      JSNum.mul supTotal (JSNum.sub (.fin 1) (JSNum.div discount (.fin 100)))
    else supTotal
  (supTotal, finalTotal)

/-- A retained item of the submit handler (part_001 line 302): raw
strings except for the sanitized item name. -/
structure SubmittedItem where
  item : String
  width : String
  length : String
  space : String
  quantity : String
  unitPrice : String
  itemTotal : String
deriving DecidableEq

/-- The `saleDb` record built at part_001 lines 315–325. -/
structure SaleDb where
  id : String
  customername : String
  customerphone : String
  date : String
  items : List SubmittedItem
  discount : JSNum
  suptotal : JSNum
  total : JSNum
  status : String
deriving DecidableEq

/-- Outcome of one run of the submit handler, after the rate-limit
check (which compares wall-clock timestamps and is outside this model):
capacity rejection, the two toast rejections, or a hand-off of the
validated payload to the persistence collaborator. -/
inductive SubmitOutcome where
  | capacityError : SubmitOutcome
  | noItems : SubmitOutcome
  | invalid (errors : List String) : SubmitOutcome
  | accepted (sale : SaleDb) : SubmitOutcome
deriving DecidableEq

/-- Part_001 line 290: exactly one of width/length is present. -/
def dimMismatch (r : SaleRow) : Bool :=
  let hasWidth := hasPos (.vstr r.width) 0 MAX_ITEM_DIMENSIONS
  let hasLength := hasPos (.vstr r.length) 0 MAX_ITEM_DIMENSIONS
  (hasWidth && !hasLength) || (!hasWidth && hasLength)

/-- Part_001 line 296: quantity or unit price is not a valid positive
value. -/
def qtyPriceMissing (r : SaleRow) : Bool :=
  !hasPos (.vstr r.quantity) 0 MAX_QUANTITY_PER_ITEM ||
  !hasPos (.vstr r.unitPrice) 0 MAX_PRICE_PER_ITEM

/-- Part_001 line 301: a row is retained when `item || quantity` is
truthy, i.e. the sanitized item name or the raw quantity string is
nonempty. -/
def retainedRow (r : SaleRow) : Bool :=
  !(sanitizeInputStr r.item).isEmpty || !r.quantity.isEmpty

/-- The per-row message pushed at part_001 line 292. -/
def rowMessage (index : ℕ) : String :=
  "Row " ++ ⟨Nat.toDigits 10 (index + 1)⟩ ++
    ": Both width and length must be provided together, or neither."

/-- The retained-row record pushed at part_001 line 302. -/
def toSubmittedItem (r : SaleRow) : SubmittedItem :=
  { item := sanitizeInputStr r.item, width := r.width, length := r.length,
    space := r.space, quantity := r.quantity, unitPrice := r.unitPrice,
    itemTotal := r.itemTotal }

/-- The submit handler of part_001 lines 233–347 as a pure function
(`generatedId` stands for the `crypto.randomUUID()` token, `nowIso` for
`new Date().toISOString()`): the capacity check, the `forEach`
validation pass (rendered as `any` / `filterMap` / `filter` over the
same rows in the same order), the no-items and `hasError` rejections,
and on success the `saleDb` record handed to the API client. -/
def processSubmit (rows : List SaleRow) (customerName customerPhone : String)
    (discountStr supTotalStr totalStr : String)
    (generatedId nowIso : String) : SubmitOutcome :=
  if MAX_ITEMS_PER_SALE < rows.length then .capacityError
  else
    let hasError := rows.any (fun r => dimMismatch r || qtyPriceMissing r)
    let validationErrors :=
      rows.enum.filterMap (fun p => if dimMismatch p.2 then some (rowMessage p.1) else none)
    let items := (rows.filter retainedRow).map toSubmittedItem
    if items.length = 0 then .noItems
    else if hasError then .invalid validationErrors
    else .accepted
      { id := generatedId,
        customername := customerName,
        customerphone := customerPhone,
        date := nowIso,
        items := items,
        discount := jsOr0 (parseFloat discountStr),
        suptotal := jsOr0 (parseFloat supTotalStr),
        total := jsOr0 (parseFloat totalStr),
        status := "Pending" }

/-! ## The editing/tracking flow's shared calculator
(`src/starjet/sales-track.js` lines 254–268) -/

/-- `Number.prototype.toFixed(2)` on a nonnegative finite value: round
to two decimals, half away from zero; the model keeps the numeric value
the produced string denotes. -/
def toFixed2 (q : ℚ) : ℚ := (⌊q * 100 + 1 / 2⌋ : ℚ) / 100

/-- `toFixed(2)` on a JavaScript number (`Infinity.toFixed(2)` prints
`"Infinity"`). -/
def toFixed2J : JSNum → JSNum
  | .fin q => .fin (toFixed2 q)
  | x => x

/-- `calculateTotal({width, length, quantity, unitPrice, discount})`
(sales-track.js lines 254–268): raw `parseFloat`/`parseInt` with no
sanitization and no bounds, the area-priced guard only, discount
applied inline, result formatted with `toFixed(2)` — or `''` (here
`none`) when the guard fails. -/
def calculateTotal (width length quantity unitPrice discount : String) : Option JSNum :=
  let w := parseFloat width
  let l := parseFloat length
  let q := parseInt quantity
  let p := parseFloat unitPrice
  let d := jsOr0 (parseFloat discount)
  if (!w.isNaNb && JSNum.ltb (.fin 0) w) && (!l.isNaNb && JSNum.ltb (.fin 0) l) &&
      (!q.isNaNb && JSNum.ltb (.fin 0) q) && (!p.isNaNb && JSNum.ltb (.fin 0) p) then
    let total := JSNum.mul (JSNum.mul (JSNum.mul w l) q) p
    let total :=
      if !d.isNaNb && JSNum.ltb (.fin 0) d then
        JSNum.mul total (JSNum.sub (.fin 1) (JSNum.div d (.fin 100)))
      else total
    some (toFixed2J total)
  else none

/-! ## Helper predicates used by the theorem statements -/

/-- Does a case-insensitive occurrence of the (lowercase) pattern start
anywhere in the input? -/
def containsCI (pat : List Char) : List Char → Bool
  | [] => (matchCI pat []).isSome
  | c :: cs => (matchCI pat (c :: cs)).isSome || containsCI pat cs

/-- Does an `/on\w+=/i` occurrence start anywhere in the input? -/
def containsOn : List Char → Bool
  | [] => false
  | c :: cs => (matchOn (c :: cs)).isSome || containsOn cs

/-- The (always finite, see `calculateRowTotal_bounds`) rational value
of a row's total, as fed into the aggregation by `updateAllTotals`. -/
def rowTotalQ (r : SaleRow) : ℚ :=
  (calculateRowTotal (.vstr r.width) (.vstr r.length) (.vstr r.quantity) (.vstr r.unitPrice)).toQ

/-! ## Sanitizer lemmas -/

theorem matchCI_suffix (pat : List Char) :
    ∀ l r : List Char, matchCI pat l = some r → r <:+ l := by
  induction pat with
  | nil =>
    intro l r h
    simp only [matchCI, Option.some.injEq] at h
    subst h
    exact List.suffix_refl l
  | cons p ps ih =>
    intro l r h
    cases l with
    | nil => simp [matchCI] at h
    | cons c cs =>
      simp only [matchCI] at h
      by_cases hc : c.toLower = p
      · simp only [hc, if_pos rfl] at h
        exact (ih cs r h).trans (List.suffix_cons c cs)
      · simp [hc] at h

theorem matchOn_suffix :
    ∀ l r : List Char, matchOn l = some r → r <:+ l := by
  intro l r h
  match l with
  | [] => simp [matchOn] at h
  | [c] => simp [matchOn] at h
  | c1 :: c2 :: rest =>
    rw [matchOn] at h
    have hsuf : rest.dropWhile isWordChar <:+ rest := List.dropWhile_suffix _
    by_cases hc : ((c1 = 'o' || c1 = 'O') && (c2 = 'n' || c2 = 'N')) = true
    · rw [if_pos hc] at h
      by_cases hw : (rest.takeWhile isWordChar).isEmpty = true
      · rw [if_pos hw] at h; simp at h
      · rw [if_neg hw] at h
        cases hd : rest.dropWhile isWordChar with
        | nil => rw [hd] at h; simp at h
        | cons d ds =>
          rw [hd] at h hsuf
          have h' : (if d = '=' then some ds else none) = some r := h
          by_cases hde : d = '='
          · rw [if_pos hde] at h'
            simp only [Option.some.injEq] at h'
            subst h'
            calc ds <:+ d :: ds := List.suffix_cons d ds
              _ <:+ rest := hsuf
              _ <:+ c2 :: rest := List.suffix_cons c2 rest
              _ <:+ c1 :: c2 :: rest := List.suffix_cons c1 _
          · rw [if_neg hde] at h'; simp at h'
    · rw [if_neg hc] at h; simp at h

theorem removeJSF_sublist : ∀ (fuel : ℕ) (l : List Char),
    List.Sublist (removeJSF fuel l) l := by
  intro fuel
  induction fuel with
  | zero => intro l; exact List.Sublist.refl l
  | succ f ih =>
    intro l
    cases l with
    | nil => simp [removeJSF]
    | cons c cs =>
      rw [removeJSF]
      cases hm : matchCI jsPattern (c :: cs) with
      | none => exact List.Sublist.cons₂ c (ih cs)
      | some rest =>
        exact (ih rest).trans (matchCI_suffix jsPattern _ rest hm).sublist

theorem removeOnF_sublist : ∀ (fuel : ℕ) (l : List Char),
    List.Sublist (removeOnF fuel l) l := by
  intro fuel
  induction fuel with
  | zero => intro l; exact List.Sublist.refl l
  | succ f ih =>
    intro l
    cases l with
    | nil => simp [removeOnF]
    | cons c cs =>
      rw [removeOnF]
      cases hm : matchOn (c :: cs) with
      | none => exact List.Sublist.cons₂ c (ih cs)
      | some rest =>
        exact (ih rest).trans (matchOn_suffix _ rest hm).sublist

theorem reverse_dropWhile_reverse_pre (p : Char → Bool) (l : List Char) :
    (l.reverse.dropWhile p).reverse <+: l := by
  have h : l.reverse.dropWhile p <:+ l.reverse := List.dropWhile_suffix p
  rw [← List.reverse_reverse (l.reverse.dropWhile p)] at h
  exact List.reverse_suffix.mp h

theorem trimStr_sublist (l : List Char) : List.Sublist (trimStr l) l := by
  unfold trimStr
  exact ((reverse_dropWhile_reverse_pre isJsWS _).sublist).trans
    (List.dropWhile_suffix isJsWS).sublist

theorem dropWhile_eq_self_of_head (p : Char → Bool) (l : List Char)
    (h : ∀ a, l.head? = some a → p a = false) : l.dropWhile p = l := by
  cases l with
  | nil => rfl
  | cons c cs => simp [List.dropWhile_cons, h c rfl]

theorem head_of_dropWhile_false (p : Char → Bool) (l : List Char) (a : Char)
    (h : (l.dropWhile p).head? = some a) : p a = false := by
  have hh := List.head?_dropWhile_not p l
  rw [h] at hh
  exact hh

theorem prefix_head (v u : List Char) (a : Char) (h : v <+: u)
    (hv : v.head? = some a) : u.head? = some a := by
  obtain ⟨t, rfl⟩ := h
  cases v with
  | nil => simp at hv
  | cons b v' => simpa using hv

theorem dropWhile_trimStr (l : List Char) :
    (trimStr l).dropWhile isJsWS = trimStr l := by
  apply dropWhile_eq_self_of_head
  intro a ha
  have hpre : trimStr l <+: l.dropWhile isJsWS :=
    reverse_dropWhile_reverse_pre isJsWS (l.dropWhile isJsWS)
  have := prefix_head _ _ a hpre ha
  exact head_of_dropWhile_false isJsWS l a this

theorem trimStr_trimStr (l : List Char) : trimStr (trimStr l) = trimStr l := by
  have h1 : (trimStr l).dropWhile isJsWS = trimStr l := dropWhile_trimStr l
  have h2 : ((l.dropWhile isJsWS).reverse.dropWhile isJsWS).dropWhile isJsWS
      = (l.dropWhile isJsWS).reverse.dropWhile isJsWS :=
    dropWhile_eq_self_of_head _ _ (fun a ha => head_of_dropWhile_false _ _ a ha)
  calc trimStr (trimStr l)
      = (((trimStr l).dropWhile isJsWS).reverse.dropWhile isJsWS).reverse := rfl
    _ = ((trimStr l).reverse.dropWhile isJsWS).reverse := by rw [h1]
    _ = ((((l.dropWhile isJsWS).reverse.dropWhile isJsWS).reverse.reverse).dropWhile
          isJsWS).reverse := rfl
    _ = (((l.dropWhile isJsWS).reverse.dropWhile isJsWS).dropWhile isJsWS).reverse := by
          rw [List.reverse_reverse]
    _ = ((l.dropWhile isJsWS).reverse.dropWhile isJsWS).reverse := by rw [h2]
    _ = trimStr l := rfl

theorem removeTagsF_eq_self (fuel : ℕ) : ∀ l : List Char,
    (∀ c ∈ l, c ≠ '<') → removeTagsF fuel l = l := by
  induction fuel with
  | zero => intro l _; rfl
  | succ f ih =>
    intro l h
    cases l with
    | nil => rfl
    | cons c cs =>
      rw [removeTagsF, if_neg (h c (List.mem_cons_self c cs))]
      rw [ih cs (fun d hd => h d (List.mem_cons_of_mem c hd))]

theorem removeJSF_eq_self (fuel : ℕ) : ∀ l : List Char,
    containsCI jsPattern l = false → removeJSF fuel l = l := by
  induction fuel with
  | zero => intro l _; rfl
  | succ f ih =>
    intro l h
    cases l with
    | nil => rfl
    | cons c cs =>
      rw [containsCI, Bool.or_eq_false_iff] at h
      rw [removeJSF]
      cases hm : matchCI jsPattern (c :: cs) with
      | none => rw [ih cs h.2]
      | some rest => rw [hm] at h; simp at h

theorem removeOnF_eq_self (fuel : ℕ) : ∀ l : List Char,
    containsOn l = false → removeOnF fuel l = l := by
  induction fuel with
  | zero => intro l _; rfl
  | succ f ih =>
    intro l h
    cases l with
    | nil => rfl
    | cons c cs =>
      rw [containsOn, Bool.or_eq_false_iff] at h
      rw [removeOnF]
      cases hm : matchOn (c :: cs) with
      | none => rw [ih cs h.2]
      | some rest => rw [hm] at h; simp at h

theorem sanitizeChars_no_angle (l : List Char) :
    ∀ c ∈ sanitizeChars l, c ≠ '<' ∧ c ≠ '>' := by
  intro c hc
  unfold sanitizeChars at hc
  have h1 : c ∈ removeAngle (removeTags l) := by
    have s1 : List.Sublist (trimStr (removeOn (removeJS (removeAngle (removeTags l)))))
        (removeOn (removeJS (removeAngle (removeTags l)))) := trimStr_sublist _
    have s2 : List.Sublist (removeOn (removeJS (removeAngle (removeTags l))))
        (removeJS (removeAngle (removeTags l))) := removeOnF_sublist _ _
    have s3 : List.Sublist (removeJS (removeAngle (removeTags l)))
        (removeAngle (removeTags l)) := removeJSF_sublist _ _
    exact (s1.trans (s2.trans s3)).subset hc
  have := List.of_mem_filter h1
  simp only [Bool.not_eq_true', Bool.or_eq_false_iff] at this
  exact ⟨by simpa using this.1, by simpa using this.2⟩

/-- Idempotence of the sanitizer on strings whose first sanitization
contains no reassembled dangerous substring. -/
theorem sanitizeChars_idem (l : List Char)
    (hjs : containsCI jsPattern (sanitizeChars l) = false)
    (hon : containsOn (sanitizeChars l) = false) :
    sanitizeChars (sanitizeChars l) = sanitizeChars l := by
  have hang := sanitizeChars_no_angle l
  have e1 : removeTags (sanitizeChars l) = sanitizeChars l :=
    removeTagsF_eq_self _ _ (fun c hc => (hang c hc).1)
  have e2 : removeAngle (sanitizeChars l) = sanitizeChars l :=
    List.filter_eq_self.mpr (fun c hc => by
      simp [(hang c hc).1, (hang c hc).2])
  have e3 : removeJS (sanitizeChars l) = sanitizeChars l :=
    removeJSF_eq_self _ _ hjs
  have e4 : removeOn (sanitizeChars l) = sanitizeChars l :=
    removeOnF_eq_self _ _ hon
  calc sanitizeChars (sanitizeChars l)
      = trimStr (removeOn (removeJS (removeAngle (removeTags (sanitizeChars l))))) := rfl
    _ = trimStr (sanitizeChars l) := by rw [e1, e2, e3, e4]
    _ = trimStr (trimStr (removeOn (removeJS (removeAngle (removeTags l))))) := rfl
    _ = trimStr (removeOn (removeJS (removeAngle (removeTags l)))) := trimStr_trimStr _
    _ = sanitizeChars l := rfl

/-! ## Validator and row-total lemmas -/

theorem validateNumericInput_valid_fin (v : JSVal) (mn mx : ℚ)
    (h : (validateNumericInput v mn mx).isValid = true) :
    ∃ x : ℚ, (validateNumericInput v mn mx).sanitizedValue = .fin x ∧ mn ≤ x ∧ x ≤ mx := by
  simp only [validateNumericInput] at h ⊢
  cases hp : parseFloat (sanitizeInputStr (jsToString v)) with
  | nan => rw [hp] at h; simp [JSNum.isNaNb] at h
  | pinf => rw [hp] at h; simp [JSNum.isNaNb, JSNum.ltb] at h
  | ninf => rw [hp] at h; simp [JSNum.isNaNb, JSNum.ltb] at h
  | fin x =>
    rw [hp] at h
    by_cases hlt : (JSNum.ltb (.fin x) (.fin mn) || JSNum.ltb (.fin mx) (.fin x)) = true
    · simp [JSNum.isNaNb, hlt] at h
    · rw [Bool.not_eq_true] at hlt
      simp only [JSNum.isNaNb, Bool.false_eq_true, if_false, hlt] at h ⊢
      simp only [JSNum.ltb, Bool.or_eq_false_iff, decide_eq_false_iff_not, not_lt] at hlt
      exact ⟨x, rfl, hlt.1, hlt.2⟩

theorem validateNumericInput_of_parse (v : JSVal) (mn mx x : ℚ)
    (hp : parseFloat (sanitizeInputStr (jsToString v)) = .fin x)
    (h1 : mn ≤ x) (h2 : x ≤ mx) :
    validateNumericInput v mn mx = ⟨true, .fin x⟩ := by
  simp only [validateNumericInput, hp, JSNum.isNaNb, JSNum.ltb]
  simp [not_lt.mpr h1, not_lt.mpr h2]

theorem hasPos_of_parse (v : JSVal) (mn mx x : ℚ)
    (hp : parseFloat (sanitizeInputStr (jsToString v)) = .fin x)
    (h1 : mn ≤ x) (h2 : x ≤ mx) (h0 : 0 < x) :
    hasPos v mn mx = true := by
  simp only [hasPos, validateNumericInput_of_parse v mn mx x hp h1 h2]
  simp [JSNum.ltb, h0]

theorem hasPos_val (v : JSVal) (mn mx : ℚ) (h : hasPos v mn mx = true) :
    ∃ x : ℚ, (validateNumericInput v mn mx).sanitizedValue = .fin x ∧
      0 < x ∧ mn ≤ x ∧ x ≤ mx := by
  simp only [hasPos, Bool.and_eq_true] at h
  obtain ⟨x, hx, hmn, hmx⟩ := validateNumericInput_valid_fin v mn mx h.1
  refine ⟨x, hx, ?_, hmn, hmx⟩
  have h2 := h.2
  rw [hx] at h2
  simpa [JSNum.ltb] using h2

/-- `calculateRowTotal` rewritten through `hasPos`; definitionally equal
to the definition (the `let` bindings compute the same validations). -/
theorem calculateRowTotal_branches (w l q p : JSVal) :
    calculateRowTotal w l q p =
      (if hasPos w 0 MAX_ITEM_DIMENSIONS && hasPos l 0 MAX_ITEM_DIMENSIONS &&
          hasPos q 0 MAX_QUANTITY_PER_ITEM && hasPos p 0 MAX_PRICE_PER_ITEM then
        (let total := JSNum.mul (JSNum.mul
            (JSNum.mul (validateNumericInput w 0 MAX_ITEM_DIMENSIONS).sanitizedValue
              (validateNumericInput l 0 MAX_ITEM_DIMENSIONS).sanitizedValue)
            (validateNumericInput q 0 MAX_QUANTITY_PER_ITEM).sanitizedValue)
          (validateNumericInput p 0 MAX_PRICE_PER_ITEM).sanitizedValue
        if !total.isFiniteb || JSNum.ltb (.fin MAX_SAFE_INTEGER) total then .fin 0 else total)
      else if !hasPos w 0 MAX_ITEM_DIMENSIONS && !hasPos l 0 MAX_ITEM_DIMENSIONS &&
          hasPos q 0 MAX_QUANTITY_PER_ITEM && hasPos p 0 MAX_PRICE_PER_ITEM then
        (let total := JSNum.mul (validateNumericInput q 0 MAX_QUANTITY_PER_ITEM).sanitizedValue
          (validateNumericInput p 0 MAX_PRICE_PER_ITEM).sanitizedValue
        if !total.isFiniteb || JSNum.ltb (.fin MAX_SAFE_INTEGER) total then .fin 0 else total)
      else .fin 0) := rfl

theorem calculateRowTotal_area (w l q p : JSVal) (wq lq qq pq : ℚ)
    (hw : parseFloat (sanitizeInputStr (jsToString w)) = .fin wq)
    (hw0 : 0 < wq) (hwM : wq ≤ MAX_ITEM_DIMENSIONS)
    (hl : parseFloat (sanitizeInputStr (jsToString l)) = .fin lq)
    (hl0 : 0 < lq) (hlM : lq ≤ MAX_ITEM_DIMENSIONS)
    (hq : parseFloat (sanitizeInputStr (jsToString q)) = .fin qq)
    (hq0 : 0 < qq) (hqM : qq ≤ MAX_QUANTITY_PER_ITEM)
    (hp : parseFloat (sanitizeInputStr (jsToString p)) = .fin pq)
    (hp0 : 0 < pq) (hpM : pq ≤ MAX_PRICE_PER_ITEM)
    (hsafe : wq * lq * qq * pq ≤ MAX_SAFE_INTEGER) :
    calculateRowTotal w l q p = .fin (wq * lq * qq * pq) := by
  rw [calculateRowTotal_branches]
  rw [hasPos_of_parse w 0 _ wq hw (le_of_lt hw0) hwM hw0,
    hasPos_of_parse l 0 _ lq hl (le_of_lt hl0) hlM hl0,
    hasPos_of_parse q 0 _ qq hq (le_of_lt hq0) hqM hq0,
    hasPos_of_parse p 0 _ pq hp (le_of_lt hp0) hpM hp0]
  rw [validateNumericInput_of_parse w 0 _ wq hw (le_of_lt hw0) hwM,
    validateNumericInput_of_parse l 0 _ lq hl (le_of_lt hl0) hlM,
    validateNumericInput_of_parse q 0 _ qq hq (le_of_lt hq0) hqM,
    validateNumericInput_of_parse p 0 _ pq hp (le_of_lt hp0) hpM]
  simp [JSNum.mul, JSNum.isFiniteb, JSNum.ltb, not_lt.mpr hsafe]

theorem calculateRowTotal_flat (w l q p : JSVal) (qq pq : ℚ)
    (hwF : hasPos w 0 MAX_ITEM_DIMENSIONS = false)
    (hlF : hasPos l 0 MAX_ITEM_DIMENSIONS = false)
    (hq : parseFloat (sanitizeInputStr (jsToString q)) = .fin qq)
    (hq0 : 0 < qq) (hqM : qq ≤ MAX_QUANTITY_PER_ITEM)
    (hp : parseFloat (sanitizeInputStr (jsToString p)) = .fin pq)
    (hp0 : 0 < pq) (hpM : pq ≤ MAX_PRICE_PER_ITEM)
    (hsafe : qq * pq ≤ MAX_SAFE_INTEGER) :
    calculateRowTotal w l q p = .fin (qq * pq) := by
  rw [calculateRowTotal_branches]
  rw [hwF, hlF,
    hasPos_of_parse q 0 _ qq hq (le_of_lt hq0) hqM hq0,
    hasPos_of_parse p 0 _ pq hp (le_of_lt hp0) hpM hp0]
  rw [validateNumericInput_of_parse q 0 _ qq hq (le_of_lt hq0) hqM,
    validateNumericInput_of_parse p 0 _ pq hp (le_of_lt hp0) hpM]
  simp [JSNum.mul, JSNum.isFiniteb, JSNum.ltb, not_lt.mpr hsafe]

theorem calculateRowTotal_zero (w l q p : JSVal)
    (h : hasPos w 0 MAX_ITEM_DIMENSIONS ≠ hasPos l 0 MAX_ITEM_DIMENSIONS ∨
      hasPos q 0 MAX_QUANTITY_PER_ITEM = false ∨
      hasPos p 0 MAX_PRICE_PER_ITEM = false) :
    calculateRowTotal w l q p = .fin 0 := by
  rw [calculateRowTotal_branches]
  cases hW : hasPos w 0 MAX_ITEM_DIMENSIONS <;>
    cases hL : hasPos l 0 MAX_ITEM_DIMENSIONS <;>
    cases hQ : hasPos q 0 MAX_QUANTITY_PER_ITEM <;>
    cases hP : hasPos p 0 MAX_PRICE_PER_ITEM <;>
    simp_all

theorem calculateRowTotal_bounds (w l q p : JSVal) :
    ∃ n : ℚ, calculateRowTotal w l q p = .fin n ∧ 0 ≤ n ∧ n ≤ MAX_SAFE_INTEGER := by
  rw [calculateRowTotal_branches]
  have hMSI : (0 : ℚ) ≤ MAX_SAFE_INTEGER := by norm_num [MAX_SAFE_INTEGER]
  by_cases h1 : (hasPos w 0 MAX_ITEM_DIMENSIONS && hasPos l 0 MAX_ITEM_DIMENSIONS &&
      hasPos q 0 MAX_QUANTITY_PER_ITEM && hasPos p 0 MAX_PRICE_PER_ITEM) = true
  · rw [if_pos h1]
    simp only [Bool.and_eq_true] at h1
    obtain ⟨xw, hw, hw0, _, _⟩ := hasPos_val _ _ _ h1.1.1.1
    obtain ⟨xl, hl, hl0, _, _⟩ := hasPos_val _ _ _ h1.1.1.2
    obtain ⟨xq, hq, hq0, _, _⟩ := hasPos_val _ _ _ h1.1.2
    obtain ⟨xp, hp, hp0, _, _⟩ := hasPos_val _ _ _ h1.2
    rw [hw, hl, hq, hp]
    simp only [JSNum.mul, JSNum.isFiniteb, Bool.not_true, JSNum.ltb, Bool.false_or]
    by_cases hg : decide (MAX_SAFE_INTEGER < xw * xl * xq * xp) = true
    · rw [if_pos hg]
      exact ⟨0, rfl, le_refl 0, hMSI⟩
    · rw [if_neg hg]
      rw [decide_eq_true_eq] at hg
      exact ⟨xw * xl * xq * xp, rfl, by positivity, le_of_not_lt hg⟩
  · rw [if_neg h1]
    by_cases h2 : (!hasPos w 0 MAX_ITEM_DIMENSIONS && !hasPos l 0 MAX_ITEM_DIMENSIONS &&
        hasPos q 0 MAX_QUANTITY_PER_ITEM && hasPos p 0 MAX_PRICE_PER_ITEM) = true
    · rw [if_pos h2]
      simp only [Bool.and_eq_true] at h2
      obtain ⟨xq, hq, hq0, _, _⟩ := hasPos_val _ _ _ h2.1.2
      obtain ⟨xp, hp, hp0, _, _⟩ := hasPos_val _ _ _ h2.2
      rw [hq, hp]
      simp only [JSNum.mul, JSNum.isFiniteb, Bool.not_true, JSNum.ltb, Bool.false_or]
      by_cases hg : decide (MAX_SAFE_INTEGER < xq * xp) = true
      · rw [if_pos hg]
        exact ⟨0, rfl, le_refl 0, hMSI⟩
      · rw [if_neg hg]
        rw [decide_eq_true_eq] at hg
        exact ⟨xq * xp, rfl, by positivity, le_of_not_lt hg⟩
    · rw [if_neg h2]
      exact ⟨0, rfl, le_refl 0, hMSI⟩

theorem rowTotalQ_eq (r : SaleRow) (n : ℚ)
    (h : calculateRowTotal (.vstr r.width) (.vstr r.length) (.vstr r.quantity)
      (.vstr r.unitPrice) = .fin n) : rowTotalQ r = n := by
  rw [rowTotalQ, h]
  rfl

theorem rowTotalQ_nonneg (r : SaleRow) : 0 ≤ rowTotalQ r := by
  obtain ⟨n, hn, h0, _⟩ := calculateRowTotal_bounds (.vstr r.width) (.vstr r.length)
    (.vstr r.quantity) (.vstr r.unitPrice)
  rw [rowTotalQ_eq r n hn]
  exact h0

theorem updateAllTotals_fold (rows : List SaleRow) : ∀ a : ℚ,
    rows.foldl (fun acc r => JSNum.add acc
      (calculateRowTotal (.vstr r.width) (.vstr r.length) (.vstr r.quantity)
        (.vstr r.unitPrice))) (.fin a)
    = .fin (rows.foldl (fun acc r => acc + rowTotalQ r) a) := by
  induction rows with
  | nil => intro a; rfl
  | cons r rs ih =>
    intro a
    obtain ⟨n, hn, _, _⟩ := calculateRowTotal_bounds (.vstr r.width) (.vstr r.length)
      (.vstr r.quantity) (.vstr r.unitPrice)
    simp only [List.foldl_cons, hn, JSNum.add, rowTotalQ_eq r n hn]
    exact ih (a + n)

theorem foldl_rowTotal_nonneg (rows : List SaleRow) : ∀ a : ℚ, 0 ≤ a →
    0 ≤ rows.foldl (fun acc r => acc + rowTotalQ r) a := by
  induction rows with
  | nil => intro a ha; exact ha
  | cons r rs ih =>
    intro a ha
    exact ih (a + rowTotalQ r) (add_nonneg ha (rowTotalQ_nonneg r))

theorem calculateRowTotal_area_overflow (w l q p : JSVal) (wq lq qq pq : ℚ)
    (hw : parseFloat (sanitizeInputStr (jsToString w)) = .fin wq)
    (hw0 : 0 < wq) (hwM : wq ≤ MAX_ITEM_DIMENSIONS)
    (hl : parseFloat (sanitizeInputStr (jsToString l)) = .fin lq)
    (hl0 : 0 < lq) (hlM : lq ≤ MAX_ITEM_DIMENSIONS)
    (hq : parseFloat (sanitizeInputStr (jsToString q)) = .fin qq)
    (hq0 : 0 < qq) (hqM : qq ≤ MAX_QUANTITY_PER_ITEM)
    (hp : parseFloat (sanitizeInputStr (jsToString p)) = .fin pq)
    (hp0 : 0 < pq) (hpM : pq ≤ MAX_PRICE_PER_ITEM)
    (hover : MAX_SAFE_INTEGER < wq * lq * qq * pq) :
    calculateRowTotal w l q p = .fin 0 := by
  rw [calculateRowTotal_branches]
  rw [hasPos_of_parse w 0 _ wq hw (le_of_lt hw0) hwM hw0,
    hasPos_of_parse l 0 _ lq hl (le_of_lt hl0) hlM hl0,
    hasPos_of_parse q 0 _ qq hq (le_of_lt hq0) hqM hq0,
    hasPos_of_parse p 0 _ pq hp (le_of_lt hp0) hpM hp0]
  rw [validateNumericInput_of_parse w 0 _ wq hw (le_of_lt hw0) hwM,
    validateNumericInput_of_parse l 0 _ lq hl (le_of_lt hl0) hlM,
    validateNumericInput_of_parse q 0 _ qq hq (le_of_lt hq0) hqM,
    validateNumericInput_of_parse p 0 _ pq hp (le_of_lt hp0) hpM]
  simp [JSNum.mul, JSNum.isFiniteb, JSNum.ltb, hover]

theorem dimMismatch_iff (r : SaleRow) : dimMismatch r = true ↔
    hasPos (.vstr r.width) 0 MAX_ITEM_DIMENSIONS ≠
      hasPos (.vstr r.length) 0 MAX_ITEM_DIMENSIONS := by
  cases hW : hasPos (.vstr r.width) 0 MAX_ITEM_DIMENSIONS <;>
    cases hL : hasPos (.vstr r.length) 0 MAX_ITEM_DIMENSIONS <;>
    simp [dimMismatch, hW, hL]

theorem qtyPriceMissing_iff (r : SaleRow) : qtyPriceMissing r = true ↔
    hasPos (.vstr r.quantity) 0 MAX_QUANTITY_PER_ITEM = false ∨
      hasPos (.vstr r.unitPrice) 0 MAX_PRICE_PER_ITEM = false := by
  cases hQ : hasPos (.vstr r.quantity) 0 MAX_QUANTITY_PER_ITEM <;>
    cases hP : hasPos (.vstr r.unitPrice) 0 MAX_PRICE_PER_ITEM <;>
    simp [qtyPriceMissing, hQ, hP]

/-- A payload containing a row that fails the per-row validation is
never handed to the persistence collaborator. -/
theorem processSubmit_reject (rows : List SaleRow)
    (cn cp dS sS tS gid now : String) (r : SaleRow) (hr : r ∈ rows)
    (he : (dimMismatch r || qtyPriceMissing r) = true) :
    ∀ s, processSubmit rows cn cp dS sS tS gid now ≠ .accepted s := by
  intro s
  have hasErr : rows.any (fun r => dimMismatch r || qtyPriceMissing r) = true :=
    List.any_eq_true.mpr ⟨r, hr, he⟩
  simp only [processSubmit, hasErr]
  split_ifs <;> simp

/-- An accepted payload passed every structural check. -/
theorem processSubmit_accepted_inv (rows : List SaleRow)
    (cn cp dS sS tS gid now : String) (s : SaleDb)
    (h : processSubmit rows cn cp dS sS tS gid now = .accepted s) :
    rows.length ≤ MAX_ITEMS_PER_SALE ∧ rows.filter retainedRow ≠ [] ∧
      rows.any (fun r => dimMismatch r || qtyPriceMissing r) = false := by
  simp only [processSubmit] at h
  split_ifs at h with h1 h2 h3
  refine ⟨le_of_not_lt h1, ?_, ?_⟩
  · intro hnil
    rw [hnil] at h2
    simp at h2
  · simpa using h3

/-! ## The claims -/

/-- C1: whenever width, length, quantity and unitPrice each parse as
numbers, lie within their configured bounds (width/length and quantity
in [0, 10000], unitPrice in [0, 1000000]), are strictly positive, and
the product does not exceed the safe-integer magnitude,
`calculateRowTotal` returns width * length * quantity * unitPrice. -/
theorem c1_area_priced_row (w l q p : JSVal) (wq lq qq pq : ℚ)
    (hw : parseFloat (sanitizeInputStr (jsToString w)) = .fin wq)
    (hw0 : 0 < wq) (hwM : wq ≤ MAX_ITEM_DIMENSIONS)
    (hl : parseFloat (sanitizeInputStr (jsToString l)) = .fin lq)
    (hl0 : 0 < lq) (hlM : lq ≤ MAX_ITEM_DIMENSIONS)
    (hq : parseFloat (sanitizeInputStr (jsToString q)) = .fin qq)
    (hq0 : 0 < qq) (hqM : qq ≤ MAX_QUANTITY_PER_ITEM)
    (hp : parseFloat (sanitizeInputStr (jsToString p)) = .fin pq)
    (hp0 : 0 < pq) (hpM : pq ≤ MAX_PRICE_PER_ITEM)
    (hsafe : wq * lq * qq * pq ≤ MAX_SAFE_INTEGER) :
    calculateRowTotal w l q p = .fin (wq * lq * qq * pq) :=
  calculateRowTotal_area w l q p wq lq qq pq hw hw0 hwM hl hl0 hlM
    hq hq0 hqM hp hp0 hpM hsafe

/-- Witness for C1: the spec's scenario 10 × 5 × 2 × 3 = 300. -/
theorem c1_area_priced_row_witness :
    calculateRowTotal (.vstr "10") (.vstr "5") (.vstr "2") (.vstr "3") = .fin 300 :=
  (c1_area_priced_row (.vstr "10") (.vstr "5") (.vstr "2") (.vstr "3") 10 5 2 3
    (by decide) (by decide) (by decide) (by decide) (by decide) (by decide)
    (by decide) (by decide) (by decide) (by decide) (by decide) (by decide)
    (by decide)).trans (by decide)

/-- C2: when neither width nor length is present (`hasWidth` and
`hasLength` both false) but quantity and unitPrice are valid, in
bounds, strictly positive, and their product is within the safe-integer
magnitude, `calculateRowTotal` returns quantity * unitPrice. -/
theorem c2_flat_priced_row (w l q p : JSVal) (qq pq : ℚ)
    (hwF : hasPos w 0 MAX_ITEM_DIMENSIONS = false)
    (hlF : hasPos l 0 MAX_ITEM_DIMENSIONS = false)
    (hq : parseFloat (sanitizeInputStr (jsToString q)) = .fin qq)
    (hq0 : 0 < qq) (hqM : qq ≤ MAX_QUANTITY_PER_ITEM)
    (hp : parseFloat (sanitizeInputStr (jsToString p)) = .fin pq)
    (hp0 : 0 < pq) (hpM : pq ≤ MAX_PRICE_PER_ITEM)
    (hsafe : qq * pq ≤ MAX_SAFE_INTEGER) :
    calculateRowTotal w l q p = .fin (qq * pq) :=
  calculateRowTotal_flat w l q p qq pq hwF hlF hq hq0 hqM hp hp0 hpM hsafe

/-- Witness for C2: the spec's scenario quantity 5, unitPrice 20, no
width/length → 100. -/
theorem c2_flat_priced_row_witness :
    calculateRowTotal (.vstr "") (.vstr "") (.vstr "5") (.vstr "20") = .fin 100 :=
  (c2_flat_priced_row (.vstr "") (.vstr "") (.vstr "5") (.vstr "20") 5 20
    (by decide) (by decide) (by decide) (by decide) (by decide) (by decide)
    (by decide) (by decide) (by decide)).trans (by decide)

/-- C3: a row with exactly one of width/length present, or with
quantity or unitPrice missing, gets row total 0 from
`calculateRowTotal`, and a payload containing such a row is rejected by
the submit handler — it is never handed to the persistence
collaborator. -/
theorem c3_invalid_mixed_row_rejected (rows : List SaleRow) (r : SaleRow)
    (hr : r ∈ rows)
    (h : dimMismatch r = true ∨ qtyPriceMissing r = true)
    (cn cp dS sS tS gid now : String) :
    calculateRowTotal (.vstr r.width) (.vstr r.length) (.vstr r.quantity)
      (.vstr r.unitPrice) = .fin 0 ∧
    ∀ s, processSubmit rows cn cp dS sS tS gid now ≠ .accepted s := by
  constructor
  · apply calculateRowTotal_zero
    rcases h with h | h
    · exact Or.inl ((dimMismatch_iff r).mp h)
    · rcases (qtyPriceMissing_iff r).mp h with h | h
      · exact Or.inr (Or.inl h)
      · exact Or.inr (Or.inr h)
  · exact processSubmit_reject rows cn cp dS sS tS gid now r hr
      (by rcases h with h | h <;> simp [h])

/-- Witness for C3: the spec's scenario width 10, length 0, quantity 1,
unitPrice 5 → total 0 and the single-row payload is rejected. -/
theorem c3_invalid_mixed_row_rejected_witness :
    calculateRowTotal (.vstr "10") (.vstr "0") (.vstr "1") (.vstr "5") = .fin 0 ∧
    ∀ s, processSubmit [⟨"x", "10", "0", "", "1", "5", ""⟩]
      "A" "1" "0" "0" "0" "uid" "now" ≠ .accepted s :=
  c3_invalid_mixed_row_rejected [⟨"x", "10", "0", "", "1", "5", ""⟩]
    ⟨"x", "10", "0", "", "1", "5", ""⟩ (by simp) (Or.inl (by decide))
    "A" "1" "0" "0" "0" "uid" "now"

/-- Counterexample to C4 as stated: the row 10000 × 10000 × 10000 ×
1000000 overflows the safe-integer bound, `calculateRowTotal` returns
0, yet the submit handler does NOT flag the row — the single-row
payload is accepted and handed to the persistence collaborator. -/
theorem c4_overflow_not_flagged_cex :
    calculateRowTotal (.vstr "10000") (.vstr "10000") (.vstr "10000")
      (.vstr "1000000") = .fin 0 ∧
    ∃ sale, processSubmit [⟨"x", "10000", "10000", "", "10000", "1000000", ""⟩]
      "A" "1" "0" "0" "0" "uid" "now" = .accepted sale :=
  ⟨by decide, ⟨_, rfl⟩⟩

/-- C4 (amended): a row whose inputs are individually valid, in bounds
and strictly positive but whose product exceeds the safe-integer
magnitude gets row total 0 from `calculateRowTotal`; the Submission
Guard, however, does not flag such a row — it passes the per-row
checks, and a payload consisting of it (with a nonempty item name) is
accepted with the zero total, not rejected. -/
theorem c4_overflow_zero_total_accepted (r : SaleRow) (wq lq qq pq : ℚ)
    (hw : parseFloat (sanitizeInputStr r.width) = .fin wq)
    (hw0 : 0 < wq) (hwM : wq ≤ MAX_ITEM_DIMENSIONS)
    (hl : parseFloat (sanitizeInputStr r.length) = .fin lq)
    (hl0 : 0 < lq) (hlM : lq ≤ MAX_ITEM_DIMENSIONS)
    (hq : parseFloat (sanitizeInputStr r.quantity) = .fin qq)
    (hq0 : 0 < qq) (hqM : qq ≤ MAX_QUANTITY_PER_ITEM)
    (hp : parseFloat (sanitizeInputStr r.unitPrice) = .fin pq)
    (hp0 : 0 < pq) (hpM : pq ≤ MAX_PRICE_PER_ITEM)
    (hover : MAX_SAFE_INTEGER < wq * lq * qq * pq)
    (hitem : (sanitizeInputStr r.item).isEmpty = false)
    (cn cp dS sS tS gid now : String) :
    calculateRowTotal (.vstr r.width) (.vstr r.length) (.vstr r.quantity)
      (.vstr r.unitPrice) = .fin 0 ∧
    ∃ sale, processSubmit [r] cn cp dS sS tS gid now = .accepted sale := by
  have hW : hasPos (.vstr r.width) 0 MAX_ITEM_DIMENSIONS = true :=
    hasPos_of_parse _ 0 _ wq hw (le_of_lt hw0) hwM hw0
  have hL : hasPos (.vstr r.length) 0 MAX_ITEM_DIMENSIONS = true :=
    hasPos_of_parse _ 0 _ lq hl (le_of_lt hl0) hlM hl0
  have hQ : hasPos (.vstr r.quantity) 0 MAX_QUANTITY_PER_ITEM = true :=
    hasPos_of_parse _ 0 _ qq hq (le_of_lt hq0) hqM hq0
  have hP : hasPos (.vstr r.unitPrice) 0 MAX_PRICE_PER_ITEM = true :=
    hasPos_of_parse _ 0 _ pq hp (le_of_lt hp0) hpM hp0
  have hdm : dimMismatch r = false := by simp [dimMismatch, hW, hL]
  have hqm : qtyPriceMissing r = false := by simp [qtyPriceMissing, hQ, hP]
  have hret : retainedRow r = true := by simp [retainedRow, hitem]
  constructor
  · exact calculateRowTotal_area_overflow _ _ _ _ wq lq qq pq hw hw0 hwM hl hl0 hlM
      hq hq0 hqM hp hp0 hpM hover
  · have hacc : processSubmit [r] cn cp dS sS tS gid now = .accepted
        { id := gid, customername := cn, customerphone := cp, date := now,
          items := [toSubmittedItem r],
          discount := jsOr0 (parseFloat dS), suptotal := jsOr0 (parseFloat sS),
          total := jsOr0 (parseFloat tS), status := "Pending" } := by
      simp only [processSubmit, List.length_cons, List.length_nil, List.any_cons,
        List.any_nil, hdm, hqm, List.filter, hret, List.map_cons, List.map_nil]
      norm_num [MAX_ITEMS_PER_SALE]
    exact ⟨_, hacc⟩

/-- Witness for the amended C4. -/
theorem c4_overflow_zero_total_accepted_witness :
    calculateRowTotal (.vstr "10000") (.vstr "10000") (.vstr "10000")
      (.vstr "999999") = .fin 0 ∧
    ∃ sale, processSubmit [⟨"y", "10000", "10000", "", "10000", "999999", ""⟩]
      "B" "2" "0" "0" "0" "uid2" "then" = .accepted sale :=
  c4_overflow_zero_total_accepted ⟨"y", "10000", "10000", "", "10000", "999999", ""⟩
    10000 10000 10000 999999 (by decide) (by decide) (by decide) (by decide)
    (by decide) (by decide) (by decide) (by decide) (by decide) (by decide)
    (by decide) (by decide) (by decide) (by decide)
    "B" "2" "0" "0" "0" "uid2" "then"

/-- C5: the aggregation computes `supTotal` as the sum of all row
totals (zero rows contribute 0) and the final total as
`supTotal * (1 - discount/100)` when the discount is positive and as
`supTotal` otherwise; consequently the grand total never exceeds the
subtotal for a discount in (0, 100], and equals it for discount 0. -/
theorem c5_aggregation (rows : List SaleRow) (dStr : String) (d : ℚ)
    (hd : jsOr0 (parseFloat dStr) = .fin d) (h0 : 0 ≤ d) (h100 : d ≤ 100) :
    (updateAllTotals rows dStr).1 = .fin (rows.foldl (fun a r => a + rowTotalQ r) 0) ∧
    (updateAllTotals rows dStr).2 =
      (if 0 < d then
        JSNum.fin ((rows.foldl (fun a r => a + rowTotalQ r) 0) * (1 - d / 100))
      else (updateAllTotals rows dStr).1) ∧
    (0 < d → (updateAllTotals rows dStr).2.toQ ≤ (updateAllTotals rows dStr).1.toQ) ∧
    (d = 0 → (updateAllTotals rows dStr).2 = (updateAllTotals rows dStr).1) := by
  have hfold := updateAllTotals_fold rows 0
  have h1 : (updateAllTotals rows dStr).1 =
      .fin (rows.foldl (fun a r => a + rowTotalQ r) 0) := by
    simp only [updateAllTotals]
    exact hfold
  have hS0 : 0 ≤ rows.foldl (fun a r => a + rowTotalQ r) 0 :=
    foldl_rowTotal_nonneg rows 0 le_rfl
  have h2 : (updateAllTotals rows dStr).2 =
      (if 0 < d then
        JSNum.fin ((rows.foldl (fun a r => a + rowTotalQ r) 0) * (1 - d / 100))
      else .fin (rows.foldl (fun a r => a + rowTotalQ r) 0)) := by
    simp only [updateAllTotals, hd, hfold]
    by_cases hpos : 0 < d
    · simp [JSNum.ltb, hpos, JSNum.mul, JSNum.sub, JSNum.add, JSNum.neg, JSNum.div,
        sub_eq_add_neg]
    · simp [JSNum.ltb, hpos]
  refine ⟨h1, ?_, ?_, ?_⟩
  · rw [h2, h1]
  · intro hpos
    rw [h2, h1, if_pos hpos]
    have hfac : 1 - d / 100 ≤ 1 := by
      have : 0 ≤ d / 100 := div_nonneg h0 (by norm_num)
      linarith
    simpa [JSNum.toQ] using mul_le_of_le_one_right hS0 hfac
  · intro hz
    rw [h2, h1, if_neg (by rw [hz]; exact lt_irrefl 0)]

/-- Witness for C5: the spec's scenario — one 10 × 5 × 2 × 3 row,
discount 10 → subtotal 300, grand total 270. -/
theorem c5_aggregation_witness :
    (updateAllTotals [⟨"x", "10", "5", "", "2", "3", ""⟩] "10").1 = .fin 300 ∧
    (updateAllTotals [⟨"x", "10", "5", "", "2", "3", ""⟩] "10").2 = .fin 270 := by
  have h := c5_aggregation [⟨"x", "10", "5", "", "2", "3", ""⟩] "10" 10
    (by decide) (by decide) (by decide)
  exact ⟨h.1.trans (by decide), (h.2.1.trans (by decide))⟩

/-- C6: the submit handler enforces the row-count capacity (a 51-row
payload is rejected with the capacity error), rejects a payload with no
retained rows, and hands a payload to the persistence collaborator only
if every structural check passed — on any validation error nothing is
submitted. -/
theorem c6_submission_guard (rows : List SaleRow) (cn cp dS sS tS gid now : String) :
    (rows.length = 51 → processSubmit rows cn cp dS sS tS gid now = .capacityError) ∧
    (rows.length ≤ MAX_ITEMS_PER_SALE → rows.filter retainedRow = [] →
      processSubmit rows cn cp dS sS tS gid now = .noItems) ∧
    (∀ s, processSubmit rows cn cp dS sS tS gid now = .accepted s →
      rows.length ≤ MAX_ITEMS_PER_SALE ∧ rows.filter retainedRow ≠ [] ∧
      rows.any (fun r => dimMismatch r || qtyPriceMissing r) = false) := by
  refine ⟨?_, ?_, ?_⟩
  · intro h51
    simp only [processSubmit]
    rw [if_pos (by rw [h51]; norm_num [MAX_ITEMS_PER_SALE])]
  · intro hle hnil
    simp only [processSubmit]
    rw [if_neg (not_lt.mpr hle), hnil]
    simp
  · intro s h
    exact processSubmit_accepted_inv rows cn cp dS sS tS gid now s h

/-- Witness for C6: 51 rows are rejected with the capacity error. -/
theorem c6_submission_guard_witness :
    processSubmit (List.replicate 51 ⟨"", "", "", "", "", "", ""⟩)
      "A" "1" "0" "0" "0" "g" "n" = .capacityError :=
  (c6_submission_guard (List.replicate 51 ⟨"", "", "", "", "", "", ""⟩)
    "A" "1" "0" "0" "0" "g" "n").1 (by decide)

/-- C7: `validateNumericInput` returns `{valid: false, value: 0}` when
the sanitized string form of the value does not parse as a number,
`{valid: false, value: parsed}` when the parsed value (possibly an
infinity) falls outside the inclusive `[min, max]` range, and
`{valid: true, value: parsed}` otherwise. -/
theorem c7_validate_numeric_cases (value : JSVal) (mn mx : ℚ) :
    (parseFloat (sanitizeInputStr (jsToString value)) = .nan →
      validateNumericInput value mn mx = ⟨false, .fin 0⟩) ∧
    (∀ p : JSNum, parseFloat (sanitizeInputStr (jsToString value)) = p → p ≠ .nan →
      ((JSNum.ltb p (.fin mn) || JSNum.ltb (.fin mx) p) = true →
        validateNumericInput value mn mx = ⟨false, p⟩) ∧
      ((JSNum.ltb p (.fin mn) || JSNum.ltb (.fin mx) p) = false →
        validateNumericInput value mn mx = ⟨true, p⟩)) := by
  refine ⟨?_, ?_⟩
  · intro h
    simp [validateNumericInput, h, JSNum.isNaNb]
  · intro p hp hnan
    have hnb : p.isNaNb = false := by
      cases p with
      | nan => exact absurd rfl hnan
      | pinf => rfl
      | ninf => rfl
      | fin x => rfl
    constructor
    · intro hout
      simp [validateNumericInput, hp, hnb, hout]
    · intro hin
      simp [validateNumericInput, hp, hnb, hin]

/-- Witness for C7: `"abc"` is unparsable and yields
`{valid: false, value: 0}`. -/
theorem c7_validate_numeric_cases_witness :
    validateNumericInput (.vstr "abc") 0 100 = ⟨false, .fin 0⟩ :=
  (c7_validate_numeric_cases (.vstr "abc") 0 100).1 (by decide)

/-- Counterexample to C8 as stated: the sanitizer is not idempotent —
removing `javascript:` occurrences from
`"jajavascript:vascript:x"` reassembles a new `javascript:` that only a
second pass removes. -/
theorem c8_sanitizer_not_idempotent_cex :
    sanitizeInput (.vstr (sanitizeInput (.vstr "jajavascript:vascript:x"))) ≠
      sanitizeInput (.vstr "jajavascript:vascript:x") := by decide

/-- C8 (amended): the sanitizer is total, every non-string input yields
the empty string, and it is idempotent on every string whose first
sanitization contains no reassembled `javascript:` occurrence
(case-insensitive) and no reassembled `on…=` handler pattern. -/
theorem c8_sanitizer_total_amended :
    (∀ v : JSVal, (∀ s : String, v ≠ .vstr s) → sanitizeInput v = "") ∧
    (∀ s : String, containsCI jsPattern (sanitizeInput (.vstr s)).data = false →
      containsOn (sanitizeInput (.vstr s)).data = false →
      sanitizeInput (.vstr (sanitizeInput (.vstr s))) = sanitizeInput (.vstr s)) := by
  constructor
  · intro v hv
    cases v with
    | vstr s => exact absurd rfl (hv s)
    | vnum n => rfl
    | vbool b => rfl
    | vnull => rfl
    | vundef => rfl
  · intro s hjs hon
    have h := sanitizeChars_idem s.data hjs hon
    calc sanitizeInput (.vstr (sanitizeInput (.vstr s)))
        = ⟨sanitizeChars (sanitizeChars s.data)⟩ := rfl
      _ = ⟨sanitizeChars s.data⟩ := congrArg String.mk h
      _ = sanitizeInput (.vstr s) := rfl

/-- Witness for the amended C8. -/
theorem c8_sanitizer_total_amended_witness :
    sanitizeInput (.vstr (sanitizeInput (.vstr "hello world"))) =
      sanitizeInput (.vstr "hello world") :=
  c8_sanitizer_total_amended.2 "hello world" (by decide) (by decide)

/-- Counterexample to C9 as stated: the two flows do not agree on
flat-priced rows — for quantity 5 and unitPrice 20 with no
width/length, the sale-entry flow computes 100 while the
editing/tracking flow's `calculateTotal` yields no total at all. -/
theorem c9_flows_disagree_cex :
    calculateTotal "" "" "5" "20" "0" = none ∧
    calculateRowTotal (.vstr "") (.vstr "") (.vstr "5") (.vstr "20") = .fin 100 :=
  ⟨by decide, by decide⟩

/-- C9 (amended): the two flows agree only on area-priced rows — when
width, length and unitPrice parse to in-bounds positive values, the
quantity is a positive in-bounds integer (the editing flow truncates it
with `parseInt`), the discount is zero and the product is within the
safe-integer magnitude, `calculateTotal` returns exactly the sale-entry
row total up to 2-decimal display rounding; on flat-priced rows they
diverge (see the counterexample). -/
theorem c9_flows_agree_area_only (wS lS qS pS dS : String) (wq lq pq : ℚ) (n : ℕ)
    (hwT : parseFloat wS = .fin wq)
    (hwS : parseFloat (sanitizeInputStr wS) = .fin wq)
    (hw0 : 0 < wq) (hwM : wq ≤ MAX_ITEM_DIMENSIONS)
    (hlT : parseFloat lS = .fin lq)
    (hlS : parseFloat (sanitizeInputStr lS) = .fin lq)
    (hl0 : 0 < lq) (hlM : lq ≤ MAX_ITEM_DIMENSIONS)
    (hqT : parseInt qS = .fin n)
    (hqS : parseFloat (sanitizeInputStr qS) = .fin n)
    (hn0 : 0 < n) (hnM : (n : ℚ) ≤ MAX_QUANTITY_PER_ITEM)
    (hpT : parseFloat pS = .fin pq)
    (hpS : parseFloat (sanitizeInputStr pS) = .fin pq)
    (hp0 : 0 < pq) (hpM : pq ≤ MAX_PRICE_PER_ITEM)
    (hd : jsOr0 (parseFloat dS) = .fin 0)
    (hsafe : wq * lq * n * pq ≤ MAX_SAFE_INTEGER) :
    calculateTotal wS lS qS pS dS = some (.fin (toFixed2 (wq * lq * n * pq))) ∧
    calculateRowTotal (.vstr wS) (.vstr lS) (.vstr qS) (.vstr pS) =
      .fin (wq * lq * n * pq) := by
  have hn0Q : (0 : ℚ) < n := by exact_mod_cast hn0
  constructor
  · simp only [calculateTotal, hwT, hlT, hqT, hpT, hd]
    simp [JSNum.isNaNb, JSNum.ltb, hw0, hl0, hn0Q, hp0, JSNum.mul, toFixed2J]
  · exact calculateRowTotal_area _ _ _ _ wq lq n pq hwS hw0 hwM hlS hl0 hlM
      hqS hn0Q hnM hpS hp0 hpM hsafe

/-- Witness for the amended C9: 10 × 5 × 2 × 3 = 300 in both flows. -/
theorem c9_flows_agree_area_only_witness :
    calculateTotal "10" "5" "2" "3" "0" = some (.fin 300) ∧
    calculateRowTotal (.vstr "10") (.vstr "5") (.vstr "2") (.vstr "3") = .fin 300 := by
  have h := c9_flows_agree_area_only "10" "5" "2" "3" "0" 10 5 3 2
    (by decide) (by decide) (by decide) (by decide) (by decide) (by decide)
    (by decide) (by decide) (by decide) (by decide) (by decide) (by decide)
    (by decide) (by decide) (by decide) (by decide) (by decide) (by decide)
  exact ⟨h.1.trans (by decide), h.2.trans (by decide)⟩

/-- C10: on every input whatsoever, `calculateRowTotal` returns a
finite number `n` with `0 ≤ n ≤ Number.MAX_SAFE_INTEGER` — no branch
produces a negative, `NaN` or infinite total (and the model, like the
source, is a total function). -/
theorem c10_row_total_always_bounded (w l q p : JSVal) :
    ∃ n : ℚ, calculateRowTotal w l q p = .fin n ∧ 0 ≤ n ∧ n ≤ MAX_SAFE_INTEGER :=
  calculateRowTotal_bounds w l q p
